import Mathlib

/-!
Verification of the glide pipeline execution layer (`glide/core.py`).

This file shallowly embeds the data model and the operations of
`glide/core.py`: per-node context resolution (`Node._populate_run_args`),
context update/reset, the skip-on-falsy node variant, fan-out split mode
(`numpy.array_split` as used by `FuturesPushNode._push`), the `Reducer`,
the CLI surface builder (`GliderScript`), clean-up aggregation and
bulk-replace statement generation, and proves or refutes the spec claims
about them.

Python dicts are modelled as insertion-ordered association lists with
unique keys; machine values flowing through contexts are modelled by a
small closed `Value` type; fallible code returns `Except`.
-/

namespace Glide

/-- A closed model of the Python values that flow through node contexts,
global state and CLI arguments. -/
inductive Value where
  | str (s : String)
  | int (n : Int)
  | bool (b : Bool)
  | none
deriving DecidableEq

/-- Python truthiness for `Value` (used by `if default:` style tests). -/
def truthy : Value → Bool
  | Value.str s => !s.isEmpty
  | Value.int n => n != 0
  | Value.bool b => b
  | Value.none => false

/-- The Python `type()` of a `Value`, for CLI arg type inference. -/
inductive PyType where
  | str
  | int
  | bool
  | noneType
deriving DecidableEq

/-- `type(v)` for a modelled value. -/
def valueType : Value → PyType
  | Value.str _ => PyType.str
  | Value.int _ => PyType.int
  | Value.bool _ => PyType.bool
  | Value.none => PyType.noneType

/-- Python `repr` of a value, as used when a dict is interpolated into an
error message (`core.py` line 90). -/
def pyReprValue : Value → String
  | Value.str s => "\x27" ++ s ++ "\x27"
  | Value.int n => toString n
  | Value.bool b => if b then "True" else "False"
  | Value.none => "None"

/-- Insertion-ordered association list modelling a Python `dict` with
`String` keys. -/
abbrev Dict (α : Type) := List (String × α)

/-- `d[k]` lookup (first matching key). -/
def dictGet {α : Type} : Dict α → String → Option α
  | [], _ => Option.none
  | (k2, v) :: rest, k => if k2 = k then some v else dictGet rest k

/-- `k in d` membership test. -/
def dictContains {α : Type} (d : Dict α) (k : String) : Bool :=
  (dictGet d k).isSome

/-- `d[k] = v` assignment: replaces the value in place when the key exists
(keeping its position, as Python dicts do), appends otherwise. -/
def dictSet {α : Type} : Dict α → String → α → Dict α
  | [], k, v => [(k, v)]
  | (k2, v2) :: rest, k, v =>
    if k2 = k then (k2, v) :: rest else (k2, v2) :: dictSet rest k v

/-- `d.update(upd)`: assign every key of `upd` into `d`, in order. -/
def dictUpdate {α : Type} (d : Dict α) (upd : Dict α) : Dict α :=
  upd.foldl (fun acc kv => dictSet acc kv.1 kv.2) d

/-- Python `str(dict)` rendering, as interpolated by `%s` in the missing
argument error message of `Node._populate_run_args`. -/
def pyReprDict (d : Dict Value) : String :=
  "\x7b" ++
    String.intercalate ", "
      (d.map (fun kv => "\x27" ++ kv.1 ++ "\x27: " ++ pyReprValue kv.2)) ++
    "\x7d"

/-- Embedding of glide's `GlobalState` wrapper: a shared mapping. -/
structure GlobalState where
  entries : Dict Value
deriving DecidableEq

/-- `GlobalState.__bool__` from `core.py`: always `True`, even when the
mapping is empty ("Hack to get Consecution to use this as default even if
technically empty"). -/
def GlobalState.toBool (_ : GlobalState) : Bool := true

/-- The statically relevant pieces of a glide `Node`: its name, the run
contract derived by `_get_run_args` (required positional names in order,
keyword names with their defaults), the default-context snapshot captured
at construction, and the live context. -/
structure NodeSpec where
  name : String
  runArgs : List String
  runKwargs : Dict Value
  defaultContext : Dict Value
  context : Dict Value
deriving DecidableEq

/-- `Node.__init__`: store the default context and reset the live context
to a copy of it. -/
def nodeInit (name : String) (runArgs : List String) (runKwargs : Dict Value)
    (defaultContext : Dict Value) : NodeSpec :=
  ⟨name, runArgs, runKwargs, defaultContext, defaultContext⟩

/-- `Node.update_context`: `self.context.update(context)`. -/
def updateContext (n : NodeSpec) (c : Dict Value) : NodeSpec :=
  { n with context := dictUpdate n.context c }

/-- `Node.reset_context`: `self.context = self.default_context.copy()`. -/
def resetContext (n : NodeSpec) : NodeSpec :=
  { n with context := n.defaultContext }

/-- The error message raised by `Node._populate_run_args` when a required
run arg is missing: it interpolates the argument name and the live
context (and nothing else). -/
def missingArgMsg (p : String) (ctx : Dict Value) : String :=
  "Required run arg \"" ++ p ++ "\" is missing from context: " ++ pyReprDict ctx

/-- The loop of `Node._populate_run_args` that builds the positional
argument list: each required arg is looked up in the live context first,
then (because `GlobalState` is always truthy) in the global state; the
first arg found in neither raises the missing-argument error. -/
def populateArgsLoop (ctx : Dict Value) (gs : GlobalState) :
    List String → Except String (List Value)
  | [] => Except.ok []
  | a :: rest =>
    match dictGet ctx a with
    | Option.none =>
      if gs.toBool then
        match dictGet gs.entries a with
        | some v =>
          match populateArgsLoop ctx gs rest with
          | Except.ok vs => Except.ok (v :: vs)
          | Except.error e => Except.error e
        | Option.none => Except.error (missingArgMsg a ctx)
      else Except.error (missingArgMsg a ctx)
    | some v =>
      match populateArgsLoop ctx gs rest with
      | Except.ok vs => Except.ok (v :: vs)
      | Except.error e => Except.error e

/-- `Node._populate_run_args`: resolve the positional args, then pass
every context key not consumed as a positional arg through as a keyword
argument. -/
def populateRunArgs (n : NodeSpec) (gs : GlobalState) :
    Except String (List Value × Dict Value) :=
  match populateArgsLoop n.context gs n.runArgs with
  | Except.error e => Except.error e
  | Except.ok args =>
    Except.ok (args, n.context.filter (fun kv => !(n.runArgs.contains kv.1)))

/-- Resolution of one required positional parameter, as performed by the
loop body of `_populate_run_args`: context first, global state second. -/
def resolveArg (ctx : Dict Value) (gs : GlobalState) (a : String) : Option Value :=
  match dictGet ctx a with
  | some v => some v
  | Option.none => if gs.toBool then dictGet gs.entries a else Option.none

/-- Substring test over the characters of a string (whether `pat` occurs
contiguously in `s`), used to state what an error message names. -/
def charsStartWith : List Char → List Char → Bool
  | _, [] => true
  | [], _ :: _ => false
  | c :: cs, d :: ds => c = d && charsStartWith cs ds

/-- Whether `pat` occurs contiguously anywhere in `s`. -/
def charsContainSub : List Char → List Char → Bool
  | [], pat => charsStartWith [] pat
  | c :: rest, pat => charsStartWith (c :: rest) pat || charsContainSub rest pat

/-- Whether the string `sub` occurs as a contiguous substring of `s`. -/
def strContains (s sub : String) : Bool :=
  charsContainSub s.toList sub.toList

/-- Items flowing through a pipeline, as far as `SkipFalseNode` can tell
them apart. `glide.utils.is_pandas` is not under `src/`; modelled from the
spec: a tabular (pandas) item, characterised here by its row count, versus
any other item, characterised by its truthiness. -/
inductive Item where
  | pandas (nrows : Nat)
  | other (truthy : Bool)
deriving DecidableEq

/-- What a node invocation does to an item: forwards it with `push`, or
invokes `run` on it. -/
inductive NodeEvent where
  | pushed (i : Item)
  | ran (i : Item)
deriving DecidableEq

/-- `SkipFalseNode._run`: a pandas item with no rows, or a falsy
non-pandas item, is pushed to the next node without calling `run`;
otherwise `run` is invoked on it. -/
def skipFalseRun (item : Item) : List NodeEvent :=
  match item with
  | Item.pandas n => if n == 0 then [NodeEvent.pushed item] else [NodeEvent.ran item]
  | Item.other t => if !t then [NodeEvent.pushed item] else [NodeEvent.ran item]

/-- The emptiness test applied by `SkipFalseNode._run`: `item.empty` for a
pandas item, `not item` otherwise. -/
def itemEmpty (item : Item) : Bool :=
  match item with
  | Item.pandas n => n == 0
  | Item.other t => !t

/-- `Reducer.begin`: `self.results = []`. -/
def reducerBegin : List Item := []

/-- `Reducer.run`: appends the item to `self.results` and performs no
push; the second component is the (empty) list of pushes made by `run`. -/
def reducerRunStep (s : List Item) (item : Item) : List Item × List (List Item) :=
  (s ++ [item], [])

/-- `Reducer.end`: pushes the collected results once. -/
def reducerEndStep (s : List Item) : List (List Item) := [s]

/-- One consume pass through a `Reducer`: `begin`, then `run` on every
arriving item in order, then `end`; the result is the list of pushes the
reducer made, in order. -/
def reducerConsume (items : List Item) : List (List Item) :=
  let r := items.foldl
    (fun acc item =>
      let st := reducerRunStep acc.1 item
      (st.1, acc.2 ++ st.2))
    (reducerBegin, ([] : List (List Item)))
  r.2 ++ reducerEndStep r.1

/-- The slice sizes produced by `numpy.array_split(item, n)` on a sequence
of length `L`: `L % n` sections of size `L / n + 1` followed by the
remaining sections of size `L / n`. -/
def sectionSizes (L n : Nat) : List Nat :=
  List.replicate (L % n) (L / n + 1) ++ List.replicate (n - L % n) (L / n)

/-- Cut `xs` into consecutive slices of the given sizes. -/
def takeSlices {α : Type} : List Nat → List α → List (List α)
  | [], _ => []
  | s :: rest, xs => xs.take s :: takeSlices rest (xs.drop s)

/-- `numpy.array_split(xs, n)` on a 1-dimensional sequence, as invoked by
`FuturesPushNode._push` in split mode. -/
def arraySplit {α : Type} (xs : List α) (n : Nat) : List (List α) :=
  takeSlices (sectionSizes xs.length n) xs

/-- The task list submitted by `FuturesPushNode._push` in split mode: one
task per downstream node, task `i` carrying slice `i` of the split item. -/
def futuresPushSplit {α : Type} (downstreams : List String) (item : List α) :
    List (String × List α) :=
  downstreams.zip (arraySplit item downstreams.length)

/-- One value placeholder in a generated bulk SQL statement: either a
named placeholder referring to a column, or a positional one rendered by a
fixed value string such as `?` or `%s`. -/
inductive Placeholder where
  | named (col : String)
  | positional (s : String)
deriving DecidableEq

/-- The shape of a generated bulk replace statement: target table, column
list, and one placeholder per column. -/
structure BulkReplaceStmt where
  table : String
  columns : List String
  values : List Placeholder
deriving DecidableEq

/-- Modelled from the spec: `glide.sql_utils.get_bulk_replace` is not
under `src/`. Per the spec, placeholder style depends on the arguments the
dispatcher passes: with `dicts` set the statement uses named placeholders
(the dict-row cursor branch); otherwise one positional `value_string`
placeholder per column (`"?"` for the embedded single-file branch, the
default value string otherwise). -/
def sqlUtilsGetBulkReplace (table : String) (columns : List String)
    (dicts : Bool) (valueString : String) : BulkReplaceStmt :=
  ⟨table, columns,
    if dicts then columns.map Placeholder.named
    else columns.map (fun _ => Placeholder.positional valueString)⟩

/-- The default `value_string` of the modelled `get_bulk_replace`. -/
def defaultValueString : String := "%s"

/-- Connection capability categories distinguished by
`SQLConnectionNode.get_bulk_replace`: a SQLAlchemy (dialect-style)
connection, an embedded sqlite3 connection, or any other cursor-style
DBAPI connection. `glide.sql_utils.is_sqlalchemy_conn` is not under
`src/`; modelled from the spec as the classification into these
categories. -/
inductive Conn where
  | sqlalchemy
  | sqlite
  | dbapi
deriving DecidableEq

/-- Row shapes reaching bulk replace generation: dict-like rows,
`sqlite3.Row` rows (name-addressable), or plain positional tuples. -/
inductive Row where
  | dictRow (entries : Dict Value)
  | sqliteRow (entries : Dict Value)
  | tupleRow (vals : List Value)
deriving DecidableEq

/-- `rows[0].keys()`: available on dict rows and `sqlite3.Row` rows, an
`AttributeError` (`Option.none`) on plain tuples. -/
def rowKeys : Row → Option (List String)
  | Row.dictRow entries => some (entries.map (fun kv => kv.1))
  | Row.sqliteRow entries => some (entries.map (fun kv => kv.1))
  | Row.tupleRow _ => Option.none

/-- Whether a row is a `sqlite3.Row` (`isinstance(rows[0], sqlite3.Row)`). -/
def isSqliteRow : Row → Bool
  | Row.sqliteRow _ => true
  | _ => false

/-- Whether a row is a plain tuple (`isinstance(rows[0], tuple)`). -/
def isTupleRow : Row → Bool
  | Row.tupleRow _ => true
  | _ => false

/-- `SQLConnectionNode.get_bulk_replace`: dialect-style connections call
the generator with `dicts=False` and the default value string; sqlite3
connections require `sqlite3.Row` rows and use `dicts=False` with
`value_string="?"`; any other cursor-style connection rejects tuple rows
and calls the generator with its defaults (`dicts=True`). -/
def nodeGetBulkReplace (conn : Conn) (table : String) (rows : List Row) :
    Except String BulkReplaceStmt :=
  match rows with
  | [] => Except.error "IndexError: list index out of range"
  | r :: _ =>
    match conn with
    | Conn.sqlalchemy =>
      match rowKeys r with
      | some ks => Except.ok (sqlUtilsGetBulkReplace table ks false defaultValueString)
      | Option.none => Except.error "AttributeError: keys"
    | Conn.sqlite =>
      if isSqliteRow r then
        match rowKeys r with
        | some ks => Except.ok (sqlUtilsGetBulkReplace table ks false "?")
        | Option.none => Except.error "AttributeError: keys"
      else Except.error "Only sqlite3.Row rows are supported"
    | Conn.dbapi =>
      if isTupleRow r then
        Except.error "Dict rows expected, got tuple. Please use a dict cursor."
      else
        match rowKeys r with
        | some ks => Except.ok (sqlUtilsGetBulkReplace table ks true defaultValueString)
        | Option.none => Except.error "AttributeError: keys"

/-- Whether a generated statement uses any named placeholder. -/
def usesNamed (s : BulkReplaceStmt) : Bool :=
  s.values.any (fun p => match p with | Placeholder.named _ => true | _ => false)

/-- The behavior of one clean-up hook when called on a value: it either
returns or raises. -/
abbrev CleanFunc := Value → Except Unit Unit

/-- `GliderScript.clean_up`: with no clean map it returns immediately.
Otherwise, for each entry: a key absent from the kwargs appends a message
to the collected errors (the subsequent `kwargs[key]` lookup raises
`KeyError`, swallowed by the bare `except`); a present key has its hook
called, and an exception raised by the hook is swallowed by the bare
`except` without being recorded. If any messages were collected, one
aggregated error is raised at the end. -/
def cleanUp (clean : List (String × CleanFunc)) (kwargs : Dict Value) :
    Except (List String) Unit :=
  if clean.isEmpty then Except.ok ()
  else
    let errors := clean.foldl
      (fun errors entry =>
        match dictGet kwargs entry.1 with
        | Option.none => errors ++ ["Could not clean up " ++ entry.1 ++ ", no arg found"]
        | some v =>
          match entry.2 v with
          | Except.ok _ => errors
          | Except.error _ => errors)
      []
    if errors.isEmpty then Except.ok () else Except.error errors

/-- A synthesized CLI argument (a toolbox `Arg` as built by
`GliderScript._get_script_arg`): its name, required flag, inferred type,
default, `store_true`/`store_false` action for toggles, and `nargs` for
the reserved data argument. -/
structure ScriptArg where
  name : String
  required : Bool
  argType : PyType
  default : Option Value
  action : Option String
  nargs : Option String
deriving DecidableEq

/-- `GliderScript._get_script_arg_name`: `"%s_%s" % (node_name, arg_name)`. -/
def getScriptArgName (nodeName argName : String) : String :=
  nodeName ++ "_" ++ argName

/-- `GliderScript.blacklisted`: an argument is blacklisted when its bare
name or its fully namespaced name is in the blacklist (which already
includes every injected name, added by `__init__`). -/
def blacklistedArg (blacklist : List String) (nodeName argName : String) : Bool :=
  blacklist.contains argName || blacklist.contains (getScriptArgName nodeName argName)

/-- `GliderScript._get_script_arg`: `none` when blacklisted; otherwise an
injected arg is optional with no default, an arg present in the node
context or the global state becomes optional with that value as default,
the arg type is the type of a truthy default (string otherwise), and a
bool-typed arg becomes a toggle whose action negates the default. -/
def getScriptArg (blacklist inject : List String) (gs : Dict Value)
    (node : NodeSpec) (argName : String) (required0 : Bool)
    (default0 : Option Value) : Option ScriptArg :=
  if blacklistedArg blacklist node.name argName then Option.none
  else
    let rd : Bool × Option Value :=
      if inject.contains argName then (false, Option.none)
      else
        match dictGet node.context argName with
        | some v => (false, some v)
        | Option.none =>
          match dictGet gs argName with
          | some v => (false, some v)
          | Option.none => (required0, default0)
    let defTruthy : Bool :=
      match rd.2 with
      | some v => truthy v
      | Option.none => false
    let argType : PyType :=
      if defTruthy then
        match rd.2 with
        | some v => valueType v
        | Option.none => PyType.str
      else PyType.str
    let fullName := "--" ++ getScriptArgName node.name argName
    if argType = PyType.bool then
      some ⟨fullName, rd.1, argType, rd.2,
        some (if defTruthy then "store_false" else "store_true"), Option.none⟩
    else
      some ⟨fullName, rd.1, argType, rd.2, Option.none, Option.none⟩

/-- The reserved data argument `Arg(SCRIPT_DATA_ARG, nargs="+")`. -/
def mkDataArg : ScriptArg :=
  ⟨"data", false, PyType.str, Option.none, Option.none, some "+"⟩

/-- The custom-arg loop at the end of `_get_script_args`: each custom arg
must not be blacklisted (assertion) and overrides any same-named arg. -/
def customArgsLoop (blacklist : List String) :
    List ScriptArg → Dict ScriptArg → Except String (Dict ScriptArg)
  | [], acc => Except.ok acc
  | ca :: rest, acc =>
    if blacklistedArg blacklist "" ca.name then
      Except.error ("Blacklisted arg \x27" ++ ca.name ++ "\x27 passed as a custom arg")
    else customArgsLoop blacklist rest (dictSet acc ca.name ca)

/-- `GliderScript._get_script_args`: the data argument first (unless
blacklisted), then one argument per required positional and per keyword
parameter of every node, keyed by argument name, then the custom args. -/
def getScriptArgs (blacklist inject : List String) (gs : Dict Value)
    (nodes : List NodeSpec) (customArgs : List ScriptArg) :
    Except String (Dict ScriptArg) :=
  let base : Dict ScriptArg :=
    if blacklistedArg blacklist "" "data" then [] else [("data", mkDataArg)]
  let afterNodes := nodes.foldl
    (fun acc node =>
      let acc1 := node.runArgs.foldl
        (fun acc argName =>
          match getScriptArg blacklist inject gs node argName true Option.none with
          | some sa => dictSet acc sa.name sa
          | Option.none => acc)
        acc
      node.runKwargs.foldl
        (fun acc kv =>
          match getScriptArg blacklist inject gs node kv.1 false (some kv.2) with
          | some sa => dictSet acc sa.name sa
          | Option.none => acc)
        acc1)
    base
  customArgsLoop blacklist customArgs afterNodes

/-- Python `key.split("_")` (split on every underscore, keeping empty
pieces), accumulating the current piece in reverse. -/
def splitUnderscoreAux : List Char → List Char → List String
  | [], acc => [String.mk acc.reverse]
  | c :: rest, acc =>
    if c = '_' then String.mk acc.reverse :: splitUnderscoreAux rest []
    else splitUnderscoreAux rest (c :: acc)

/-- Python `key.split("_")`. -/
def splitUnderscore (s : String) : List String :=
  splitUnderscoreAux s.toList []

/-- Joining parts with an underscore separator, as the un-flattening code
does to recover an argument name from the split key. -/
def joinUnderscore : List String → String
  | [] => ""
  | [s] => s
  | s :: rest => s ++ "_" ++ joinUnderscore rest

/-- `node_contexts.setdefault(name, {})[key] = value`. -/
def setNested (d : Dict (Dict Value)) (name key : String) (v : Value) :
    Dict (Dict Value) :=
  match dictGet d name with
  | some inner => dictSet d name (dictSet inner key v)
  | Option.none => d ++ [(name, [(key, v)])]

/-- The kwarg loop of `GliderScript._convert_kwargs`: keys whose first
underscore-delimited segment is a known node name are un-flattened into
that node's context update (a bare node name is an invalid keyword arg);
any other key is remembered as unused. -/
def convertLoop (nodeNames : List String) :
    List (String × Value) → Dict (Dict Value) → List String →
    Except String (Dict (Dict Value) × List String)
  | [], nc, unused => Except.ok (nc, unused)
  | (key, value) :: rest, nc, unused =>
    let parts := splitUnderscore key
    let nodeName := parts.headD ""
    if nodeNames.contains nodeName then
      if parts.length > 1 then
        convertLoop nodeNames rest
          (setNested nc nodeName (joinUnderscore parts.tail) value) unused
      else Except.error ("Invalid keyword arg " ++ key ++ ", can not be a node name")
    else convertLoop nodeNames rest nc (unused ++ [key])

/-- The positional-arg loop of `_get_injected_node_contexts` for one node:
the loop variable `arg_name` is (re)bound on every iteration, and an
injected positional arg stores `kwargs[arg_name]` under its own name. The
final loop variable value is threaded out, because the keyword loop below
reads the stale `arg_name` binding. -/
def injectLoopArgs (inject : List String) (nodeName : String) (kwargs : Dict Value) :
    List String → Dict (Dict Value) → Option String →
    Except String (Dict (Dict Value) × Option String)
  | [], nc, lastArg => Except.ok (nc, lastArg)
  | a :: rest, nc, _ =>
    if inject.contains a then
      match dictGet kwargs a with
      | some v => injectLoopArgs inject nodeName kwargs rest (setNested nc nodeName a v) (some a)
      | Option.none => Except.error ("KeyError: " ++ a)
    else injectLoopArgs inject nodeName kwargs rest nc (some a)

/-- The keyword-arg loop of `_get_injected_node_contexts` for one node: an
injected keyword arg reads `kwargs[kwarg_name]` but stores it under the
stale `arg_name` binding left over from the positional loop (a `NameError`
when that variable was never bound). -/
def injectLoopKwargs (inject : List String) (nodeName : String) (kwargs : Dict Value) :
    List (String × Value) → Dict (Dict Value) → Option String →
    Except String (Dict (Dict Value))
  | [], nc, _ => Except.ok nc
  | (k, _) :: rest, nc, lastArg =>
    if inject.contains k then
      match dictGet kwargs k with
      | some v =>
        match lastArg with
        | some a => injectLoopKwargs inject nodeName kwargs rest (setNested nc nodeName a v) lastArg
        | Option.none => Except.error "NameError: name \x27arg_name\x27 is not defined"
      | Option.none => Except.error ("KeyError: " ++ k)
    else injectLoopKwargs inject nodeName kwargs rest nc lastArg

/-- The node loop of `GliderScript._get_injected_node_contexts`; the
`arg_name` binding persists across node iterations. -/
def injectNodesLoop (inject : List String) (kwargs : Dict Value) :
    List NodeSpec → Dict (Dict Value) → Option String →
    Except String (Dict (Dict Value))
  | [], nc, _ => Except.ok nc
  | node :: rest, nc, lastArg =>
    match injectLoopArgs inject node.name kwargs node.runArgs nc lastArg with
    | Except.error e => Except.error e
    | Except.ok st =>
      match injectLoopKwargs inject node.name kwargs node.runKwargs st.1 st.2 with
      | Except.error e => Except.error e
      | Except.ok nc3 => injectNodesLoop inject kwargs rest nc3 st.2

/-- `GliderScript._get_injected_node_contexts`. -/
def getInjectedNodeContexts (inject : List String) (nodes : List NodeSpec)
    (kwargs : Dict Value) : Except String (Dict (Dict Value)) :=
  injectNodesLoop inject kwargs nodes [] Option.none

/-- The merge loop of `_convert_kwargs`: each node's injected args update
its un-flattened context when present, and are installed whole otherwise,
so injected values land last. -/
def mergeContexts (base injected : Dict (Dict Value)) : Dict (Dict Value) :=
  injected.foldl
    (fun acc p =>
      match dictGet acc p.1 with
      | some inner => dictSet acc p.1 (dictUpdate inner p.2)
      | Option.none => acc ++ [(p.1, p.2)])
    base

/-- A value of the final kwargs produced by `_convert_kwargs`: either an
un-flattened node context update, or a passed-through top-level value. -/
inductive FinalVal where
  | ctx (d : Dict Value)
  | plain (v : Value)
deriving DecidableEq

/-- `GliderScript._convert_kwargs`: un-flatten the namespaced kwargs into
node context updates, merge the injected contexts last, then pass every
unused key through unchanged as a top-level keyword. -/
def convertKwargs (nodes : List NodeSpec) (inject : List String)
    (kwargs : Dict Value) : Except String (Dict FinalVal) :=
  match convertLoop (nodes.map (fun n => n.name)) kwargs [] [] with
  | Except.error e => Except.error e
  | Except.ok st =>
    match getInjectedNodeContexts inject nodes kwargs with
    | Except.error e => Except.error e
    | Except.ok injected =>
      let merged := mergeContexts st.1 injected
      let base := merged.map (fun p => (p.1, FinalVal.ctx p.2))
      Except.ok (st.2.foldl
        (fun acc key =>
          dictSet acc key (FinalVal.plain ((dictGet kwargs key).getD Value.none)))
        base)

lemma foldl_update_default (us : List (Dict Value)) : ∀ n : NodeSpec,
    (us.foldl updateContext n).defaultContext = n.defaultContext := by
  induction us with
  | nil => intro n; rfl
  | cons u rest ih => intro n; rw [List.foldl_cons, ih]; rfl

/-- C2: For every Node constructed with default context `D` and every
subsequent sequence of `update_context` calls, `reset_context` leaves the
live context exactly equal to `D`, the default-context snapshot captured
at construction. -/
theorem reset_restores_default_context (name : String) (runArgs : List String)
    (runKwargs : Dict Value) (d : Dict Value) (updates : List (Dict Value)) :
    (resetContext (updates.foldl updateContext (nodeInit name runArgs runKwargs d))).context
      = d := by
  simp only [resetContext, foldl_update_default, nodeInit]

/-- C3: For every skip-on-falsy node and every item: an empty tabular item
or a falsy non-tabular item is pushed unchanged without `run` ever being
invoked; a non-empty/truthy item has `run` invoked on it exactly once. -/
theorem skip_false_node_spec (item : Item) :
    (itemEmpty item = true → skipFalseRun item = [NodeEvent.pushed item]) ∧
    (itemEmpty item = false → skipFalseRun item = [NodeEvent.ran item]) ∧
    (skipFalseRun item).count (NodeEvent.ran item)
      = (if itemEmpty item then 0 else 1) := by
  rcases item with n | t
  · by_cases h : n = 0 <;> simp [skipFalseRun, itemEmpty, h, List.count_cons]
  · cases t <;> simp [skipFalseRun, itemEmpty, List.count_cons]

/-- Witness for C3 at the empty pandas item and at a truthy plain item. -/
theorem skip_false_node_spec_witness :
    skipFalseRun (Item.pandas 0) = [NodeEvent.pushed (Item.pandas 0)] ∧
    skipFalseRun (Item.other true) = [NodeEvent.ran (Item.other true)] :=
  ⟨(skip_false_node_spec (Item.pandas 0)).1 rfl,
   (skip_false_node_spec (Item.other true)).2.1 rfl⟩

lemma reducer_fold (items : List Item) : ∀ (s : List Item) (ps : List (List Item)),
    items.foldl
      (fun acc item =>
        let st := reducerRunStep acc.1 item
        (st.1, acc.2 ++ st.2))
      (s, ps) = (s ++ items, ps) := by
  induction items with
  | nil => intro s ps; simp
  | cons x xs ih =>
    intro s ps
    rw [List.foldl_cons]
    have h : (let st := reducerRunStep (s, ps).1 x
              ((st.1, (s, ps).2 ++ st.2) : List Item × List (List Item))) = (s ++ [x], ps) := by
      simp [reducerRunStep]
    rw [h, ih]
    simp

/-- C5: A Reducer over one consume pass receiving items in arrival order
never pushes per item; exactly one push occurs, at the end of the pass,
and its value is the arrival-ordered sequence of items, the collection
buffer being empty before the pass begins. -/
theorem reducer_single_push_spec (items : List Item) :
    reducerConsume items = [items] ∧ reducerBegin = ([] : List Item) := by
  refine ⟨?_, rfl⟩
  simp [reducerConsume, reducer_fold, reducerBegin, reducerEndStep]

lemma takeSlices_length {α : Type} (sizes : List Nat) :
    ∀ xs : List α, (takeSlices sizes xs).length = sizes.length := by
  induction sizes with
  | nil => intro xs; rfl
  | cons s rest ih => intro xs; simp [takeSlices, ih]

lemma takeSlices_join {α : Type} (sizes : List Nat) :
    ∀ xs : List α, (takeSlices sizes xs).flatten = xs.take sizes.sum := by
  induction sizes with
  | nil => intro xs; simp [takeSlices]
  | cons s rest ih =>
    intro xs
    simp only [takeSlices, List.flatten_cons, ih, List.sum_cons, List.take_add]

lemma takeSlices_map_length {α : Type} (sizes : List Nat) :
    ∀ xs : List α, sizes.sum ≤ xs.length →
      (takeSlices sizes xs).map List.length = sizes := by
  induction sizes with
  | nil => intro xs _; rfl
  | cons s rest ih =>
    intro xs h
    rw [List.sum_cons] at h
    simp only [takeSlices, List.map_cons]
    have h1 : (List.take s xs).length = s := by
      rw [List.length_take]
      omega
    rw [h1, ih (List.drop s xs) (by rw [List.length_drop]; omega)]

lemma length_sectionSizes {L n : Nat} (h : 0 < n) : (sectionSizes L n).length = n := by
  have := Nat.mod_lt L h
  simp [sectionSizes]
  omega

lemma sum_sectionSizes {L n : Nat} (h : 0 < n) : (sectionSizes L n).sum = L := by
  have hlt : L % n < n := Nat.mod_lt L h
  have hdm : n * (L / n) + L % n = L := Nat.div_add_mod L n
  have e2 : L % n * (L / n) ≤ n * (L / n) :=
    Nat.mul_le_mul_right _ (le_of_lt hlt)
  simp only [sectionSizes, List.sum_append, List.sum_replicate, smul_eq_mul]
  rw [Nat.mul_add, Nat.mul_one, Nat.sub_mul]
  generalize hA : L % n * (L / n) = A at e2 ⊢
  generalize hB : n * (L / n) = B at e2 hdm ⊢
  omega

lemma mem_sectionSizes {L n s : Nat} (hs : s ∈ sectionSizes L n) :
    s = L / n ∨ s = L / n + 1 := by
  rcases List.mem_append.mp hs with h | h
  · right; exact List.eq_of_mem_replicate h
  · left; exact List.eq_of_mem_replicate h

lemma arraySplit_length {α : Type} (xs : List α) {n : Nat} (h : 0 < n) :
    (arraySplit xs n).length = n := by
  rw [arraySplit, takeSlices_length, length_sectionSizes h]

lemma arraySplit_join {α : Type} (xs : List α) {n : Nat} (h : 0 < n) :
    (arraySplit xs n).flatten = xs := by
  rw [arraySplit, takeSlices_join, sum_sectionSizes h, List.take_length]

lemma arraySplit_mem_length {α : Type} {xs : List α} {n : Nat} (h : 0 < n)
    {s : List α} (hs : s ∈ arraySplit xs n) :
    s.length = xs.length / n ∨ s.length = xs.length / n + 1 := by
  have hmap : (arraySplit xs n).map List.length = sectionSizes xs.length n := by
    rw [arraySplit]
    exact takeSlices_map_length _ _ (le_of_eq (sum_sectionSizes h))
  have : s.length ∈ sectionSizes xs.length n := by
    rw [← hmap]
    exact List.mem_map_of_mem List.length hs
  exact mem_sectionSizes this

/-- C4: Fan-out push in split mode: with `N` downstream stages and a
sliceable item of length `L`, one task is created per downstream stage in
order, stage `i` receiving slice `i`; the slices concatenate back to the
original item (so `L` is preserved) and their lengths differ by at most
one. -/
theorem fanout_split_spec {α : Type} (downstreams : List String) (item : List α)
    (h : 0 < downstreams.length) :
    (futuresPushSplit downstreams item).length = downstreams.length ∧
    (futuresPushSplit downstreams item).map Prod.fst = downstreams ∧
    (futuresPushSplit downstreams item).map Prod.snd
      = arraySplit item downstreams.length ∧
    (arraySplit item downstreams.length).flatten = item ∧
    (∀ s ∈ arraySplit item downstreams.length,
      s.length = item.length / downstreams.length ∨
      s.length = item.length / downstreams.length + 1) ∧
    (∀ s ∈ arraySplit item downstreams.length,
      ∀ t ∈ arraySplit item downstreams.length, s.length ≤ t.length + 1) := by
  have hlen : (arraySplit item downstreams.length).length = downstreams.length :=
    arraySplit_length item h
  refine ⟨?_, ?_, ?_, arraySplit_join item h, ?_, ?_⟩
  · rw [futuresPushSplit, List.length_zip, hlen, Nat.min_self]
  · exact List.map_fst_zip _ _ (le_of_eq hlen.symm)
  · exact List.map_snd_zip _ _ (le_of_eq hlen)
  · intro s hs
    exact arraySplit_mem_length h hs
  · intro s hs t ht
    rcases arraySplit_mem_length h hs with h1 | h1 <;>
      rcases arraySplit_mem_length h ht with h2 | h2 <;> omega

/-- Witness for C4: splitting a five-element item across two downstream
stages. -/
theorem fanout_split_spec_witness :
    (futuresPushSplit ["d1", "d2"] [1, 2, 3, 4, 5]).length = 2 ∧
    (futuresPushSplit ["d1", "d2"] [1, 2, 3, 4, 5]).map Prod.fst = ["d1", "d2"] ∧
    (futuresPushSplit ["d1", "d2"] [1, 2, 3, 4, 5]).map Prod.snd
      = arraySplit [1, 2, 3, 4, 5] 2 ∧
    (arraySplit [1, 2, 3, 4, 5] 2).flatten = [1, 2, 3, 4, 5] ∧
    (∀ s ∈ arraySplit [1, 2, 3, 4, 5] 2, s.length = 5 / 2 ∨ s.length = 5 / 2 + 1) ∧
    (∀ s ∈ arraySplit [1, 2, 3, 4, 5] 2, ∀ t ∈ arraySplit [1, 2, 3, 4, 5] 2,
      s.length ≤ t.length + 1) :=
  fanout_split_spec ["d1", "d2"] [1, 2, 3, 4, 5] (by decide)

lemma resolveArg_eq_none {ctx : Dict Value} {gs : GlobalState} {a : String}
    (h : resolveArg ctx gs a = Option.none) :
    dictGet ctx a = Option.none ∧ dictGet gs.entries a = Option.none := by
  unfold resolveArg at h
  cases hc : dictGet ctx a with
  | some v => rw [hc] at h; exact absurd h (by simp)
  | none => rw [hc] at h; simp [GlobalState.toBool] at h; exact ⟨rfl, h⟩

lemma populateArgsLoop_ok (ctx : Dict Value) (gs : GlobalState) :
    ∀ runArgs : List String, (∀ a ∈ runArgs, (resolveArg ctx gs a).isSome) →
      populateArgsLoop ctx gs runArgs =
        Except.ok (runArgs.map (fun a => (resolveArg ctx gs a).getD Value.none)) := by
  intro runArgs
  induction runArgs with
  | nil => intro _; rfl
  | cons a rest ih =>
    intro h
    have ha : (resolveArg ctx gs a).isSome := h a (by simp)
    have hrest := ih (fun b hb => h b (by simp [hb]))
    cases hc : dictGet ctx a with
    | some v =>
      have hra : resolveArg ctx gs a = some v := by simp [resolveArg, hc]
      simp [populateArgsLoop, hc, hrest, hra]
    | none =>
      cases hg : dictGet gs.entries a with
      | some v =>
        have hra : resolveArg ctx gs a = some v := by
          simp [resolveArg, hc, hg, GlobalState.toBool]
        simp [populateArgsLoop, GlobalState.toBool, hc, hg, hrest, hra]
      | none =>
        exfalso
        have : resolveArg ctx gs a = Option.none := by
          simp [resolveArg, hc, hg, GlobalState.toBool]
        rw [this] at ha
        exact absurd ha (by simp)

lemma populateArgsLoop_err (ctx : Dict Value) (gs : GlobalState) :
    ∀ runArgs : List String, (∃ a ∈ runArgs, resolveArg ctx gs a = Option.none) →
      ∃ q, runArgs.find? (fun a => (resolveArg ctx gs a).isNone) = some q ∧
        populateArgsLoop ctx gs runArgs = Except.error (missingArgMsg q ctx) := by
  intro runArgs
  induction runArgs with
  | nil => rintro ⟨a, ha, _⟩; exact absurd ha (by simp)
  | cons a rest ih =>
    rintro ⟨b, hb, hbn⟩
    by_cases ha : resolveArg ctx gs a = Option.none
    · obtain ⟨hc, hg⟩ := resolveArg_eq_none ha
      refine ⟨a, ?_, ?_⟩
      · exact List.find?_cons_of_pos _ (by simp [ha])
      · simp [populateArgsLoop, hc, hg, GlobalState.toBool]
    · have hbrest : b ∈ rest := by
        rcases List.mem_cons.mp hb with h | h
        · exact absurd (h ▸ hbn) ha
        · exact h
      obtain ⟨q, hfind, herr⟩ := ih ⟨b, hbrest, hbn⟩
      refine ⟨q, ?_, ?_⟩
      · rw [List.find?_cons_of_neg _ (by simp [Option.isNone_iff_eq_none, ha]), hfind]
      · cases hc : dictGet ctx a with
        | some v => simp [populateArgsLoop, hc, herr]
        | none =>
          cases hg : dictGet gs.entries a with
          | some v => simp [populateArgsLoop, hc, hg, GlobalState.toBool, herr]
          | none =>
            exfalso
            exact ha (by simp [resolveArg, hc, hg, GlobalState.toBool])

/-- C1 (amended): for every node and required positional parameter `p` of
its run contract: if `p` is absent from both the live context and the
GlobalState, `process` fails with the missing-argument error naming the
first such missing parameter and the node's live context (not the node);
if every required parameter is present in at least one of the two
sources, the positional bindings resolve each parameter from the node's
own context when it defines it, falling back to GlobalState otherwise
(context takes precedence). -/
theorem populate_run_args_resolution (n : NodeSpec) (gs : GlobalState) (p : String)
    (hp : p ∈ n.runArgs) :
    (resolveArg n.context gs p = Option.none →
      ∃ q, q ∈ n.runArgs ∧ resolveArg n.context gs q = Option.none ∧
        n.runArgs.find? (fun a => (resolveArg n.context gs a).isNone) = some q ∧
        populateRunArgs n gs = Except.error (missingArgMsg q n.context)) ∧
    ((∀ q ∈ n.runArgs, (resolveArg n.context gs q).isSome) →
      ∃ kwargs, populateRunArgs n gs = Except.ok
        (n.runArgs.map (fun a => (resolveArg n.context gs a).getD Value.none), kwargs)) ∧
    (∀ v : Value, dictGet n.context p = some v → resolveArg n.context gs p = some v) ∧
    (dictGet n.context p = Option.none → resolveArg n.context gs p = dictGet gs.entries p) := by
  refine ⟨?_, ?_, ?_, ?_⟩
  · intro hnone
    obtain ⟨q, hfind, herr⟩ := populateArgsLoop_err n.context gs n.runArgs ⟨p, hp, hnone⟩
    have hqmem : q ∈ n.runArgs := List.mem_of_find?_eq_some hfind
    have hqnone : resolveArg n.context gs q = Option.none := by
      have := List.find?_some hfind
      simpa [Option.isNone_iff_eq_none] using this
    exact ⟨q, hqmem, hqnone, hfind, by simp [populateRunArgs, herr]⟩
  · intro hall
    refine ⟨n.context.filter (fun kv => !(n.runArgs.contains kv.1)), ?_⟩
    simp [populateRunArgs, populateArgsLoop_ok n.context gs n.runArgs hall]
  · intro v hv
    simp [resolveArg, hv]
  · intro hv
    simp [resolveArg, hv, GlobalState.toBool]

/-- A concrete node for the C1 witness: one required arg, present in its
context. -/
def c1WitnessNode : NodeSpec := nodeInit "w" ["p"] [] [("p", Value.int 1)]

/-- Witness for C1 at a node whose single required arg is in context. -/
theorem populate_run_args_resolution_witness :
    "p" ∈ c1WitnessNode.runArgs ∧
    ((resolveArg c1WitnessNode.context ⟨[]⟩ "p" = Option.none →
      ∃ q, q ∈ c1WitnessNode.runArgs ∧ resolveArg c1WitnessNode.context ⟨[]⟩ q = Option.none ∧
        c1WitnessNode.runArgs.find?
          (fun a => (resolveArg c1WitnessNode.context ⟨[]⟩ a).isNone) = some q ∧
        populateRunArgs c1WitnessNode ⟨[]⟩
          = Except.error (missingArgMsg q c1WitnessNode.context)) ∧
    ((∀ q ∈ c1WitnessNode.runArgs, (resolveArg c1WitnessNode.context ⟨[]⟩ q).isSome) →
      ∃ kwargs, populateRunArgs c1WitnessNode ⟨[]⟩ = Except.ok
        (c1WitnessNode.runArgs.map
          (fun a => (resolveArg c1WitnessNode.context ⟨[]⟩ a).getD Value.none), kwargs)) ∧
    (∀ v : Value, dictGet c1WitnessNode.context "p" = some v →
      resolveArg c1WitnessNode.context ⟨[]⟩ "p" = some v) ∧
    (dictGet c1WitnessNode.context "p" = Option.none →
      resolveArg c1WitnessNode.context ⟨[]⟩ "p" = dictGet (⟨[]⟩ : GlobalState).entries "p")) :=
  ⟨by decide, populate_run_args_resolution c1WitnessNode ⟨[]⟩ "p" (by decide)⟩

/-- C1 counterexample: a node named `mynode` with required args `q` and
`p`, both absent from context and GlobalState. Processing fails, but the
raised error message names the first missing arg `q` and the (empty)
context: it contains neither the parameter `p` nor the node name
`mynode`, refuting the claim that the error names `p` and the node. -/
theorem missing_arg_error_names_context_not_node :
    populateRunArgs (nodeInit "mynode" ["q", "p"] [] []) ⟨[]⟩
      = Except.error (missingArgMsg "q" []) ∧
    strContains (missingArgMsg "q" []) "p" = false ∧
    strContains (missingArgMsg "q" []) "mynode" = false := by
  refine ⟨rfl, ?_, ?_⟩ <;> decide

/-- Node `a` of the C7 pipeline: one required run parameter `x`. -/
def c7NodeA : NodeSpec := ⟨"a", ["x"], [], [], []⟩

/-- Node `b` of the C7 pipeline: one keyword parameter `y` defaulting to 5. -/
def c7NodeB : NodeSpec := ⟨"b", [], [("y", Value.int 5)], [], []⟩

lemma convertLoop_unknown_last (nodeNames : List String) (key : String) (v : Value)
    (nc : Dict (Dict Value)) (unused : List String)
    (h : nodeNames.contains ((splitUnderscore key).headD "") = false) :
    convertLoop nodeNames [(key, v)] nc unused = Except.ok (nc, unused ++ [key]) := by
  unfold convertLoop
  simp only []
  rw [h]
  rfl

/-- C7: For the pipeline with node `a` requiring parameter `x` and node
`b` with keyword parameter `y` defaulting to 5, the synthesized CLI
surface holds a required argument `a_x` with no default and an optional
argument `b_y` with default 5; un-flattening `a_x=foo, b_y=9` yields the
context updates `a ↦ {x: foo}` and `b ↦ {y: 9}`, and any flat key whose
first underscore-delimited segment is not a known node name passes
through unchanged as a top-level keyword. -/
theorem cli_surface_round_trip (key : String) (v : Value)
    (h1 : (splitUnderscore key).headD "" ≠ "a")
    (h2 : (splitUnderscore key).headD "" ≠ "b") :
    getScriptArgs [] [] [] [c7NodeA, c7NodeB] [] = Except.ok
      [("data", mkDataArg),
       ("--a_x", ⟨"--a_x", true, PyType.str, Option.none, Option.none, Option.none⟩),
       ("--b_y", ⟨"--b_y", false, PyType.int, some (Value.int 5), Option.none, Option.none⟩)] ∧
    convertKwargs [c7NodeA, c7NodeB] []
        [("a_x", Value.str "foo"), ("b_y", Value.int 9), (key, v)]
      = Except.ok
        [("a", FinalVal.ctx [("x", Value.str "foo")]),
         ("b", FinalVal.ctx [("y", Value.int 9)]),
         (key, FinalVal.plain v)] := by
  have hka : key ≠ "a" := fun he => h1 (by rw [he]; decide)
  have hkb : key ≠ "b" := fun he => h2 (by rw [he]; decide)
  have hk1 : key ≠ "a_x" := fun he => h1 (by rw [he]; decide)
  have hk2 : key ≠ "b_y" := fun he => h2 (by rw [he]; decide)
  have hcontains :
      (([c7NodeA, c7NodeB].map (fun n => n.name)).contains
        ((splitUnderscore key).headD "")) = false := by
    have e1 : (((splitUnderscore key).headD "") == "a") = false :=
      beq_eq_false_iff_ne.mpr h1
    have e2 : (((splitUnderscore key).headD "") == "b") = false :=
      beq_eq_false_iff_ne.mpr h2
    rw [show ([c7NodeA, c7NodeB].map (fun n => n.name)) = ["a", "b"] from rfl]
    simp only [List.contains_cons, List.contains_nil, e1, e2, Bool.or_self,
      Bool.or_false]
  constructor
  · rfl
  · show convertKwargs [c7NodeA, c7NodeB] []
        [("a_x", Value.str "foo"), ("b_y", Value.int 9), (key, v)] = _
    unfold convertKwargs
    rw [show convertLoop ([c7NodeA, c7NodeB].map (fun n => n.name))
          [("a_x", Value.str "foo"), ("b_y", Value.int 9), (key, v)] [] []
        = convertLoop ([c7NodeA, c7NodeB].map (fun n => n.name)) [(key, v)]
            [("a", [("x", Value.str "foo")]), ("b", [("y", Value.int 9)])] [] from rfl]
    rw [convertLoop_unknown_last _ _ _ _ _ hcontains]
    simp only []
    rw [show getInjectedNodeContexts [] [c7NodeA, c7NodeB]
          [("a_x", Value.str "foo"), ("b_y", Value.int 9), (key, v)]
        = Except.ok [] from rfl]
    simp only [mergeContexts, List.foldl_nil, List.map_cons, List.map_nil,
      List.foldl_cons, List.nil_append]
    have hget : dictGet [("a_x", Value.str "foo"), ("b_y", Value.int 9), (key, v)] key
        = some v := by
      simp [dictGet, Ne.symm hk1, Ne.symm hk2]
    rw [hget]
    simp [dictSet, Ne.symm hka, Ne.symm hkb]

/-- Witness for C7 at the unknown flat key `zz`. -/
theorem cli_surface_round_trip_witness :
    (splitUnderscore "zz").headD "" ≠ "a" ∧
    (splitUnderscore "zz").headD "" ≠ "b" ∧
    (getScriptArgs [] [] [] [c7NodeA, c7NodeB] [] = Except.ok
      [("data", mkDataArg),
       ("--a_x", ⟨"--a_x", true, PyType.str, Option.none, Option.none, Option.none⟩),
       ("--b_y", ⟨"--b_y", false, PyType.int, some (Value.int 5), Option.none, Option.none⟩)] ∧
    convertKwargs [c7NodeA, c7NodeB] []
        [("a_x", Value.str "foo"), ("b_y", Value.int 9), ("zz", Value.int 1)]
      = Except.ok
        [("a", FinalVal.ctx [("x", Value.str "foo")]),
         ("b", FinalVal.ctx [("y", Value.int 9)]),
         ("zz", FinalVal.plain (Value.int 1))]) :=
  ⟨by decide, by decide,
    cli_surface_round_trip "zz" (Value.int 1) (by decide) (by decide)⟩

/-- C8: at the failing input — a clean map whose hook raises for a key
that is present in the kwargs — `clean_up` swallows the hook's exception
and raises no aggregated error, while a missing key is collected and
aggregated. The exception is therefore silently discarded, contradicting
the claim that every cleanup failure appears in the aggregate. -/
theorem clean_up_swallows_hook_exception :
    cleanUp [("conn", fun _ => Except.error ())] [("conn", Value.int 1)] = Except.ok () ∧
    cleanUp [("conn", fun _ => Except.error ())] []
      = Except.error ["Could not clean up conn, no arg found"] :=
  ⟨rfl, rfl⟩

/-- C9 counterexample: name-addressable (`sqlite3.Row`) rows and a
dialect-style (SQLAlchemy) connection: the dispatcher calls the generator
with `dicts=False` and the default value string, so the generated
statement uses positional placeholders, not named ones. -/
theorem bulk_replace_sqlalchemy_positional_cex :
    nodeGetBulkReplace Conn.sqlalchemy "t" [Row.sqliteRow [("c1", Value.int 1)]]
      = Except.ok ⟨"t", ["c1"], [Placeholder.positional "%s"]⟩ ∧
    usesNamed ⟨"t", ["c1"], [Placeholder.positional "%s"]⟩ = false :=
  ⟨rfl, rfl⟩

/-- C9 (amended): bulk-replace generation dispatches on the connection
category: an embedded sqlite3 connection requires `sqlite3.Row` rows
(plain tuples are rejected) and uses positional `?` placeholders; a
dialect-style (SQLAlchemy) connection uses positional default-value-string
placeholders (not named ones); a non-embedded cursor-style connection
rejects plain tuple rows with the dict-cursor error and uses named
placeholders for dict rows. -/
theorem bulk_replace_dispatch_spec (table : String) (entries : Dict Value)
    (vals : List Value) (rest : List Row) :
    nodeGetBulkReplace Conn.sqlite table (Row.sqliteRow entries :: rest)
      = Except.ok ⟨table, entries.map (fun kv => kv.1),
          (entries.map (fun kv => kv.1)).map (fun _ => Placeholder.positional "?")⟩ ∧
    nodeGetBulkReplace Conn.sqlite table (Row.tupleRow vals :: rest)
      = Except.error "Only sqlite3.Row rows are supported" ∧
    nodeGetBulkReplace Conn.sqlalchemy table (Row.sqliteRow entries :: rest)
      = Except.ok ⟨table, entries.map (fun kv => kv.1),
          (entries.map (fun kv => kv.1)).map
            (fun _ => Placeholder.positional defaultValueString)⟩ ∧
    nodeGetBulkReplace Conn.dbapi table (Row.tupleRow vals :: rest)
      = Except.error "Dict rows expected, got tuple. Please use a dict cursor." ∧
    nodeGetBulkReplace Conn.dbapi table (Row.dictRow entries :: rest)
      = Except.ok ⟨table, entries.map (fun kv => kv.1),
          (entries.map (fun kv => kv.1)).map Placeholder.named⟩ := by
  refine ⟨?_, ?_, ?_, ?_, ?_⟩ <;>
    simp [nodeGetBulkReplace, rowKeys, isSqliteRow, isTupleRow, sqlUtilsGetBulkReplace]

/-- The node of the C10 failing input: required positional `p`, keyword
`q` defaulting to 5. -/
def c10Node : NodeSpec := ⟨"n", ["p"], [("q", Value.int 5)], [], []⟩

/-- C10: at the failing input — node `n` with positional `p` and keyword
`q`, injection of `q` producing 7, CLI kwargs `n_p=foo` plus the injected
`q=7` — the injected value of the keyword parameter `q` is stored under
the stale positional name `p`: node `n`'s context update becomes
`{p: 7}` (the CLI value `foo` is overwritten and no `q` key exists), so
the injected value does not end up under the parameter's own name. -/
theorem convert_kwargs_injected_kwarg_misnamed :
    convertKwargs [c10Node] ["q"] [("n_p", Value.str "foo"), ("q", Value.int 7)]
      = Except.ok [("n", FinalVal.ctx [("p", Value.int 7)]),
                   ("q", FinalVal.plain (Value.int 7))] ∧
    dictGet [("p", Value.int 7)] "q" = (Option.none : Option Value) :=
  ⟨rfl, rfl⟩

end Glide
